import Mathlib

/-!
Shallow embedding of the geohack coordinate-parameter pipeline
(`src/geo_param.rs`, `src/map_sources.rs`, `src/misc_map_source_values.rs`,
`src/traverse_mercator.rs`).

Modelling conventions:
* Rust `f64` values are modelled as exact rationals (`ℚ`).  Every claim
  examined here is robust to this idealisation: the inequalities at stake
  have margins many orders of magnitude above the 1e-16 relative error of
  IEEE doubles, and the concrete inputs evaluated are short decimal
  literals whose arithmetic is exact or rounds to the same observable
  values in both semantics.
* `str::parse::<f64>` is modelled for plain decimal forms
  (`[+-]?digits[.digits]`, `[+-]?.digits`); the exponent/inf/nan forms the
  Rust parser also accepts never occur in the inputs analysed.
* Rust's `HashMap` is modelled as an association list in which `insert`
  prepends and `get`/`contains_key` read the most recent binding; this has
  exactly the observable insert-overwrites semantics of `HashMap`.
* Rust `f64::to_string` (shortest round-trip display) is modelled by
  `ratDisplay`, which agrees with it on integral values — the only values
  whose rendered text is observed by the claims.  Elsewhere only the
  *length* of the rendered-token list is observable.
-/

/-- ASCII digit test, as used by the number-parsing models. -/
def isDigitC (c : Char) : Bool := '0' ≤ c && c ≤ '9'

/-- Numeric value of an ASCII digit. -/
def digitVal (c : Char) : ℕ := c.toNat - '0'.toNat

/-- Value of a digit string, most significant first. -/
def natOfDigits (ds : List Char) : ℕ := ds.foldl (fun a c => a * 10 + digitVal c) 0

/-- Core of the `f64` decimal parser: unsigned `digits[.digits]` forms. -/
def parseF64Core (cs : List Char) : Option ℚ :=
  let ip := cs.takeWhile isDigitC
  let rest := cs.dropWhile isDigitC
  match rest with
  | [] => if ip.isEmpty then none else some (natOfDigits ip : ℚ)
  | '.' :: fr =>
      let fp := fr.takeWhile isDigitC
      let rest2 := fr.dropWhile isDigitC
      if rest2 = [] ∧ (ip ≠ [] ∨ fp ≠ []) then
        some ((natOfDigits ip : ℚ) + (natOfDigits fp : ℚ) / (10 : ℚ) ^ fp.length)
      else none
  | _ => none

/-- Model of Rust `str::parse::<f64>` restricted to plain decimal forms
(exact where the IEEE parse rounds). -/
def parseF64 (s : String) : Option ℚ :=
  match s.data with
  | '-' :: cs => (parseF64Core cs).map Neg.neg
  | '+' :: cs => parseF64Core cs
  | cs => parseF64Core cs

/-- Model of Rust `str::parse::<i32>`: optional sign, all-digit body,
with the i32 range check. -/
def parseI32 (s : String) : Option ℤ :=
  let core : List Char → Bool → Option ℤ := fun cs neg =>
    if cs ≠ [] ∧ cs.all isDigitC then
      let v : ℤ := if neg then -(natOfDigits cs : ℤ) else (natOfDigits cs : ℤ)
      if -2147483648 ≤ v ∧ v ≤ 2147483647 then some v else none
    else none
  match s.data with
  | '-' :: cs => core cs true
  | '+' :: cs => core cs false
  | cs => core cs false

/-- Display of a rational, matching Rust `f64::to_string` on integral
values (the only ones whose text is observed by any claim). -/
def ratDisplay (q : ℚ) : String :=
  if q.den = 1 then toString q.num else toString q.num ++ "/" ++ toString q.den

/-- First (character) index of `c` in `s`; models Rust `str::find` on a
char pattern (byte and character indices agree on the slices taken). -/
def charIndex (s : String) (c : Char) : Option ℕ :=
  s.data.findIdx? (fun x => x == c)

/-- The first `n` characters of `s` (models byte-slice `s[..i]` at a char
boundary). -/
def strTake (s : String) (n : ℕ) : String := String.mk (s.data.take n)

/-- The string `s` without its first `n` characters (models `s[i..]`). -/
def strDrop (s : String) (n : ℕ) : String := String.mk (s.data.drop n)

/-- Characters `a..b` of `s` (models `s[a..b]`). -/
def strSlice (s : String) (a b : ℕ) : String := String.mk ((s.data.take b).drop a)

/-- ASCII lower-casing of one character (`eq_ignore_ascii_case` model). -/
def asciiLower (c : Char) : Char :=
  if 'A' ≤ c ∧ c ≤ 'Z' then Char.ofNat (c.toNat + 32) else c

/-- ASCII upper-casing of one character (`str::to_uppercase` model for the
ASCII direction letters that reach it). -/
def asciiUpper (c : Char) : Char :=
  if 'a' ≤ c ∧ c ≤ 'z' then Char.ofNat (c.toNat - 32) else c

/-- Model of Rust `str::eq_ignore_ascii_case`. -/
def eqIgnoreAsciiCase (a b : String) : Bool :=
  a.data.map asciiLower == b.data.map asciiLower

/-- Whitespace test used by the tokenizer (the inputs only contain the
space produced from `_`; other Rust whitespace classes are immaterial). -/
def isWs (c : Char) : Bool := c = ' ' || c = '\t' || c = '\n' || c = '\r'

/-- Split a character list on whitespace, dropping empty fragments
(models `str::split_whitespace`); `cur` holds the current fragment in
reverse. -/
def splitWsGo : List Char → List Char → List String
  | [], cur => if cur.isEmpty then [] else [String.mk cur.reverse]
  | c :: cs, cur =>
      if isWs c then
        if cur.isEmpty then splitWsGo cs [] else String.mk cur.reverse :: splitWsGo cs []
      else splitWsGo cs (c :: cur)

/-- Tokenisation performed by `GeoParam::new`: replace `_` by spaces,
split on whitespace, and normalise a standalone `O`/`o` token (German
"Ost") to `E`. -/
def pieces_of (param : String) : List String :=
  (splitWsGo (param.data.map (fun c => if c = '_' then ' ' else c)) []).map
    (fun s => if s = "O" ∨ s = "o" then "E" else s)

/-- The three parse-error kinds of `GeoParam::new` (`anyhow!` messages
"No coordinates provided", "Unrecognized format", "Out of range"). -/
inductive GeoError where
  | noCoordinatesProvided
  | unrecognizedFormat
  | outOfRange
deriving DecidableEq, Repr

/-- The parsed-coordinate state of `geo_param.rs::GeoParam`. -/
structure GeoParam where
  latdeg : ℚ := 0
  londeg : ℚ := 0
  latdeg_min : ℚ := 0
  londeg_min : ℚ := 0
  latdeg_max : ℚ := 0
  londeg_max : ℚ := 0
  pieces : List String := []
  coor : List String := []
deriving DecidableEq, Repr

/-- The direction letters and minute/second values returned by
`parse_coordinate_format` (the Rust 6-tuple). -/
structure CoorVals where
  lat_ns : String
  lon_ew : String
  latmin : ℚ
  lonmin : ℚ
  latsec : ℚ
  lonsec : ℚ
deriving DecidableEq, Repr

/-- Model of `GeoParam::is_coor`: valid N/S then E/W direction letters,
case-insensitive. -/
def is_coor (ns ew : String) : Bool :=
  let nsU := String.mk (ns.data.map asciiUpper)
  let ewU := String.mk (ew.data.map asciiUpper)
  (nsU == "N" || nsU == "S") && (ewU == "E" || ewU == "W")

/-- Model of `GeoParam::parse_coordinate_format`.  The Rust sequences of
`parse_piece`/`remove(0)` calls are rendered as direct destructuring of
the token list, legitimised by the length guard of each branch (the
match fallbacks are unreachable). -/
def parse_coordinate_format (g : GeoParam) : Except GeoError (GeoParam × CoorVals) :=
  match charIndex (g.pieces.headD "") ';' with
  | some i =>
      let piece := g.pieces.headD ""
      let latdeg := (parseF64 (strTake piece i)).getD 0
      let londeg := (parseF64 (strDrop piece (i + 1))).getD 0
      let g1 := { g with latdeg := latdeg, londeg := londeg, pieces := g.pieces.tail,
                         coor := [ratDisplay latdeg, ratDisplay londeg] }
      .ok (g1, ⟨"N", "E", 0, 0, 0, 0⟩)
  | none =>
      if 4 ≤ g.pieces.length ∧ is_coor (g.pieces.getD 1 "") (g.pieces.getD 3 "") then
        match g.pieces with
        | p0 :: p1 :: p2 :: p3 :: rest =>
            let latdeg := (parseF64 p0).getD 0
            let londeg := (parseF64 p2).getD 0
            let g1 := { g with latdeg := latdeg, londeg := londeg, pieces := rest,
                               coor := [ratDisplay latdeg, p1, ratDisplay londeg, p3] }
            .ok (g1, ⟨p1, p3, 0, 0, 0, 0⟩)
        | _ => .error .unrecognizedFormat
      else if 6 ≤ g.pieces.length ∧ is_coor (g.pieces.getD 2 "") (g.pieces.getD 5 "") then
        match g.pieces with
        | p0 :: p1 :: p2 :: p3 :: p4 :: p5 :: rest =>
            let latdeg := (parseF64 p0).getD 0
            let latmin := (parseF64 p1).getD 0
            let londeg := (parseF64 p3).getD 0
            let lonmin := (parseF64 p4).getD 0
            let g1 := { g with latdeg := latdeg, londeg := londeg, pieces := rest,
                               coor := [ratDisplay latdeg, ratDisplay latmin, p2,
                                        ratDisplay londeg, ratDisplay lonmin, p5] }
            .ok (g1, ⟨p2, p5, latmin, lonmin, 0, 0⟩)
        | _ => .error .unrecognizedFormat
      else if 8 ≤ g.pieces.length ∧ is_coor (g.pieces.getD 3 "") (g.pieces.getD 7 "") then
        match g.pieces with
        | p0 :: p1 :: p2 :: p3 :: p4 :: p5 :: p6 :: p7 :: rest =>
            let latdeg := (parseF64 p0).getD 0
            let latmin := (parseF64 p1).getD 0
            let latsec := (parseF64 p2).getD 0
            let londeg := (parseF64 p4).getD 0
            let lonmin := (parseF64 p5).getD 0
            let lonsec := (parseF64 p6).getD 0
            let g1 := { g with latdeg := latdeg, londeg := londeg, pieces := rest,
                               coor := [ratDisplay latdeg, ratDisplay latmin, ratDisplay latsec, p3,
                                        ratDisplay londeg, ratDisplay lonmin, ratDisplay lonsec, p7] }
            .ok (g1, ⟨p3, p7, latmin, lonmin, latsec, lonsec⟩)
        | _ => .error .unrecognizedFormat
      else .error .unrecognizedFormat

/-- The closure `valid_degree_range` of `GeoParam::validate_ranges`. -/
def valid_degree_range (deg mx : ℚ) : Bool := decide (-mx ≤ deg ∧ deg ≤ mx)

/-- The closure `valid_minsec_range` of `GeoParam::validate_ranges`. -/
def valid_minsec_range (val : ℚ) : Bool := decide (0 ≤ val ∧ val ≤ 60)

/-- Model of `GeoParam::validate_ranges` (true iff no `Out of range` error). -/
def validate_ranges (g : GeoParam) (v : CoorVals) : Bool :=
  valid_degree_range g.latdeg 90 && valid_degree_range g.londeg 360 &&
  valid_minsec_range v.latmin && valid_minsec_range v.lonmin &&
  valid_minsec_range v.latsec && valid_minsec_range v.lonsec

/-- Model of `f64::copysign` over the rational model.  (The IEEE `-0.0` sign-bit
edge cannot be represented in `ℚ`; no analysed claim distinguishes it,
since copying either sign onto a zero magnitude adds zero.) -/
def copysignQ (x sgn : ℚ) : ℚ := if sgn < 0 then -x else x

/-- The closure `direction_factor` of `convert_to_decimal_degrees`. -/
def direction_factor (dir neg_dir : String) : ℚ :=
  if eqIgnoreAsciiCase dir neg_dir then -1 else 1

/-- Model of `GeoParam::convert_to_decimal_degrees`. -/
def convert_to_decimal_degrees (g : GeoParam) (v : CoorVals) : GeoParam :=
  let latfactor := direction_factor v.lat_ns "S"
  let lonfactor := direction_factor v.lon_ew "W"
  let latmin_total := v.latmin + v.latsec / 60
  let lonmin_total := v.lonmin + v.lonsec / 60
  let latdeg := g.latdeg + copysignQ latmin_total g.latdeg / 60
  let londeg := g.londeg + copysignQ lonmin_total g.londeg / 60
  { g with latdeg := latdeg * latfactor, londeg := londeg * lonfactor }

/-- Model of `GeoParam::get_coor`. -/
def GeoParam.get_coor (g : GeoParam) : Except GeoError GeoParam :=
  if g.pieces.isEmpty then .error .noCoordinatesProvided
  else
    match parse_coordinate_format g with
    | .error e => .error e
    | .ok (g1, v) =>
        if validate_ranges g1 v then .ok (convert_to_decimal_degrees g1 v)
        else .error .outOfRange

/-- Model of `GeoParam::init_min_max`. -/
def GeoParam.init_min_max (g : GeoParam) : GeoParam :=
  { g with latdeg_min := g.latdeg, latdeg_max := g.latdeg,
           londeg_min := g.londeg, londeg_max := g.londeg }

/-- Model of `GeoParam::update_range_bounds`. -/
def GeoParam.update_range_bounds (g : GeoParam) : GeoParam :=
  let g1 := if g.latdeg < g.latdeg_max then { g with latdeg_min := g.latdeg }
            else { g with latdeg_max := g.latdeg }
  let g2 := if g1.londeg < g1.londeg_max then { g1 with londeg_min := g1.londeg }
            else { g1 with londeg_max := g1.londeg }
  { g2 with latdeg := (g2.latdeg_max + g2.latdeg_min) / 2,
            londeg := (g2.londeg_max + g2.londeg_min) / 2,
            coor := [] }

/-- The first phase of `GeoParam::new`: tokenise, read one coordinate,
initialise the min/max bounds.  (Named here to make the range flow of
`new` statable; `new` below composes the phases exactly as the source
does.) -/
def GeoParam.first_stage (param : String) : Except GeoError GeoParam :=
  match GeoParam.get_coor { pieces := pieces_of param } with
  | .error e => .error e
  | .ok g => .ok g.init_min_max

/-- Model of `GeoParam::new`: first coordinate, then, if the remaining tokens
start with the literal `to`, a second coordinate and the range update. -/
def GeoParam.new (param : String) : Except GeoError GeoParam :=
  match GeoParam.first_stage param with
  | .error e => .error e
  | .ok g =>
      if g.pieces.head? = some "to" then
        match GeoParam.get_coor { g with pieces := g.pieces.tail } with
        | .error e => .error e
        | .ok g2 => .ok g2.update_range_bounds
      else .ok g

/-! ### Attribute extraction (`GeoParam::get_attr`) -/

/-- Model of `HashMap<String,String>`: an association list in which an
insert prepends and a lookup reads the most recent binding — the
observable insert-overwrites semantics of the Rust map. -/
def AttrMap := List (String × String)
deriving DecidableEq, Repr

/-- Model of `HashMap::insert`. -/
def attrInsert (m : AttrMap) (k v : String) : AttrMap := (k, v) :: m

/-- Model of `HashMap::get`. -/
def attrLookup (m : AttrMap) (k : String) : Option String := List.lookup k m

/-- Model of `HashMap::contains_key`. -/
def attrContains (m : AttrMap) (k : String) : Bool := (List.lookup k m).isSome

/-- Model of the `s.find(':').filter(|&i| i >= 1)` step of `get_attr`. -/
def colonPos (s : String) : Option ℕ :=
  match charIndex s ':' with
  | some i => if 1 ≤ i then some i else none
  | none => none

/-- Model of the `val.find('(').zip(val.find(')')).filter(|(j, k)| k > j)` step of
`get_attr`. -/
def parenPos (val : String) : Option (ℕ × ℕ) :=
  match charIndex val '(', charIndex val ')' with
  | some j, some k => if j < k then some (j, k) else none
  | _, _ => none

/-- One iteration of the `get_attr` drain loop applied to token `s`. -/
def process_token (s : String) (m : AttrMap) : AttrMap :=
  match colonPos s with
  | some i =>
      let attr := strTake s i
      let val := strDrop s (i + 1)
      match parenPos val with
      | some (j, k) =>
          attrInsert (attrInsert m ("arg:" ++ attr) (strSlice val (j + 1) k))
            attr (strTake val j)
      | none => attrInsert m attr val
  | none =>
      match parseI32 s with
      | some num =>
          if 0 < num ∧ attrContains m "scale" = false then
            attrInsert m "scale" (toString num)
          else m
      | none => m

/-- The `while let Some(s) = self.pieces.pop()` loop of `get_attr`:
tokens are processed in drain order (last source token first). -/
def attr_drain : List String → AttrMap → AttrMap
  | [], m => m
  | s :: rest, m => attr_drain rest (process_token s m)

/-- Model of `GeoParam::get_attr` (the drained `pieces` are not observed again). -/
def GeoParam.get_attr (g : GeoParam) : AttrMap :=
  attr_drain g.pieces.reverse []

/-- The `name → value` binding a token contributes for its main key (the
`arg:`-entry aside), mirroring the key:value branch of `process_token`. -/
def tokenMainBinding (s : String) : Option (String × String) :=
  match colonPos s with
  | some i =>
      let attr := strTake s i
      let val := strDrop s (i + 1)
      match parenPos val with
      | some (j, _) => some (attr, strTake val j)
      | none => some (attr, val)
  | none => none

/-- The value bound to `k` by the latest token (in the given processing
order) that binds `k` as a key:value attribute. -/
def lastValueFor (k : String) (ts : List String) : Option String :=
  ts.foldl
    (fun acc s =>
      match tokenMainBinding s with
      | some (a, v) => if a = k then some v else acc
      | none => acc)
    none

/-- The value bound to `k` by the earliest source token that binds `k`
as a key:value attribute (the last one drained). -/
def firstValueFor (k : String) (ts : List String) : Option String :=
  ts.findSome? (fun s =>
    match tokenMainBinding s with
    | some (a, v) => if a = k then some v else none
    | none => none)

/-- The step function of `lastValueFor`, named for the proofs below. -/
def lastStep (k : String) (acc : Option String) (s : String) : Option String :=
  match tokenMainBinding s with
  | some (a, v) => if a = k then some v else acc
  | none => acc

/-! ### Template substitution (`MapSources::replace_in_page`) -/

/-- Fuelled scanner behind `listReplace` (structural recursion on the
fuel so that the definition evaluates inside the kernel; the fuel is
always at least the length of the scanned list, making the `0` case
unreachable). -/
def listReplaceF (pat rep : List Char) : ℕ → List Char → List Char
  | _, [] => []
  | 0, s => s
  | fuel + 1, c :: cs =>
      if pat ≠ [] ∧ pat.isPrefixOf (c :: cs) then
        rep ++ listReplaceF pat rep fuel (cs.drop (pat.length - 1))
      else
        c :: listReplaceF pat rep fuel cs

/-- Model of Rust `str::replace`: replace the leftmost non-overlapping
occurrences of `pat`, left to right; the `pat = []` guard keeps the
function total (the empty pattern never occurs in this repository). -/
def listReplace (pat rep s : List Char) : List Char :=
  listReplaceF pat rep s.length s

/-- Model of `str::replace` on `String`s. -/
def replaceAll (s pat rep : String) : String :=
  String.mk (listReplace pat.data rep.data s.data)

/-- Model of `MapSources::quote_html`: escape braces to HTML entities. -/
def quote_html (s : String) : String :=
  replaceAll (replaceAll s "\x7b" "&#123;") "\x7d" "&#125;"

/-- One `for (i, search_str) in search.enumerate` loop of
`replace_in_page`: each search pattern (transformed by `f`) is replaced
by the replacement of the same index; indices past the end of the
replacement list (where `replace.get(i)` is `None`) leave the page
untouched. -/
def substPass (f : String → String) : List String → List String → String → String
  | [], _, page => page
  | _ :: _, [], page => page
  | s :: ss, r :: rs, page => substPass f ss rs (replaceAll page (f s) r)

/-- The substitution core of `MapSources::replace_in_page`: a first
whole-text pass over the HTML-entity-escaped patterns, then a second
pass over the raw patterns. -/
def replace_in_page (search replace : List String) (page : String) : String :=
  substPass (fun s => s) search replace (substPass quote_html search replace page)

/-- Decidable occurrence-as-substring test for character lists. -/
def occursIn (pat s : List Char) : Bool :=
  (List.range (s.length + 1)).any (fun i => pat.isPrefixOf (s.drop i))

/-! ### Scale derivations (`map_sources.rs`, `misc_map_source_values.rs`) -/

/-- Truncation toward zero, the rounding of Rust's float-to-int `as`
casts: T-division of the numerator by the (positive) denominator. -/
def truncQ (q : ℚ) : ℤ := Int.tdiv q.num q.den

/-- Model of `as i32`: truncate toward zero, saturating at the i32 bounds. -/
def i32cast (q : ℚ) : ℤ := max (-2147483648) (min 2147483647 (truncQ q))

/-- Model of `as usize`: truncate toward zero, saturating at zero from below (the
upper saturation bound is never approached in this code). -/
def usizeCast (q : ℚ) : ℕ := (truncQ q).toNat

/-- Model of `get_altitude` (identical in `MapSources` and
`MiscMapSourceValues`): `((scale_float * 143.0 / 1000000.0) as i32).max(1)`. -/
def get_altitude (scale_float : ℚ) : ℤ :=
  max (i32cast (scale_float * 143 / 1000000)) 1

/-- Model of `MapSources::scale_dim`: derive `scale` from `dim` when no `scale`
attribute is present.  `0.1` is modelled as the exact `1/10`; the IEEE
value differs by less than `6e-18` and the quotients for the inputs
analysed round to the same numbers. -/
def scale_dim (attr : AttrMap) : AttrMap :=
  if attrContains attr "scale" = false ∧ attrContains attr "dim" = true then
    match attrLookup attr "dim" with
    | some dim =>
        let dim_value := (parseF64 (replaceAll (replaceAll dim "km" "000") "m" "")).getD 0
        attrInsert attr "scale" (ratDisplay (dim_value / (1 / 10 : ℚ)))
    | none => attr
  else attr

/-! ### Transverse Mercator zone and CH1903 (`traverse_mercator.rs`) -/

/-- Model of `TransverseMercator::normalize_longitude`: normalise to [−180, 180). -/
def normalize_longitude (longitude : ℚ) : ℚ :=
  longitude - ⌊(longitude + 180) / 360⌋ * 360

/-- The UTM zone-letter table `UTM_ZONE_LETTERS`. -/
def UTM_ZONE_LETTERS : String := "CCCDEFGHJKLMNPQRSTUVWXXX"

/-- The `zone_number` match of `TransverseMercator::compute_utm_zone`
(Norway and Svalbard exceptions, else the standard 6°-band formula). -/
def utm_zone_number (latitude longitude : ℚ) : ℤ :=
  let lon := normalize_longitude longitude
  if 56 ≤ latitude ∧ latitude < 64 ∧ 3 ≤ lon ∧ lon < 12 then 32
  else if 72 ≤ latitude ∧ latitude < 84 ∧ 0 ≤ lon ∧ lon < 42 then
    if lon < 9 then 31
    else if lon < 21 then 33
    else if lon < 33 then 35
    else 37
  else i32cast ((lon + 180) / 6) + 1

/-- Model of `TransverseMercator::compute_utm_zone`: zone number followed by the
letter from the band table (index `(lat+96)/8`, clamped to the table). -/
def compute_utm_zone (latitude longitude : ℚ) : String :=
  let zone_number := utm_zone_number latitude longitude
  let letter_index := (usizeCast ((latitude + 96) / 8)).min (UTM_ZONE_LETTERS.length - 1)
  let zone_letter := UTM_ZONE_LETTERS.data.getD letter_index 'X'
  toString zone_number ++ String.singleton zone_letter

/-- The `northing`/`easting` pair of a CH1903 projection result. -/
structure CHResult where
  northing : ℚ
  easting : ℚ
deriving DecidableEq, Repr

/-- Model of `TransverseMercator::lat_lon_to_ch1903`: the Swiss closed-form
polynomial, preceded by the validity-range check that zeroes the result
and reports failure. -/
def lat_lon_to_ch1903 (latitude longitude : ℚ) : Bool × CHResult :=
  if ¬(91 / 2 ≤ latitude ∧ latitude ≤ 48) ∨ ¬(5 ≤ longitude ∧ longitude ≤ 11) then
    (false, ⟨0, 0⟩)
  else
    let lat_aux := (latitude * 3600 - 16902866 / 100) / 10000
    let lon_aux := (longitude * 3600 - 267825 / 10) / 10000
    let northing := 20014707 / 100 + (30880795 / 100) * lat_aux + (374525 / 100) * lon_aux ^ 2
      + (7663 / 100) * lat_aux ^ 2 - (19456 / 100) * lon_aux ^ 2 * lat_aux
      + (11979 / 100) * lat_aux ^ 3
    let easting := 60007237 / 100 + (21145593 / 100) * lon_aux
      - (1093851 / 100) * lon_aux * lat_aux
      - (36 / 100) * lon_aux * lat_aux ^ 2 - (4454 / 100) * lon_aux ^ 3
    (true, ⟨northing, easting⟩)

deriving instance DecidableEq for Except

/-- The four token layouts recognised by `parse_coordinate_format`
(the guards of its branch chain, in order). -/
def matchesLayout (ps : List String) : Prop :=
  (charIndex (ps.headD "") ';').isSome = true ∨
  (4 ≤ ps.length ∧ is_coor (ps.getD 1 "") (ps.getD 3 "") = true) ∨
  (6 ≤ ps.length ∧ is_coor (ps.getD 2 "") (ps.getD 5 "") = true) ∨
  (8 ≤ ps.length ∧ is_coor (ps.getD 3 "") (ps.getD 7 "") = true)

instance (ps : List String) : Decidable (matchesLayout ps) := by
  unfold matchesLayout
  infer_instance

/-!
## Theorems

The Batteries rational-number operations are `@[irreducible]` by
default; re-enabling unfolding lets concrete evaluations go through
`decide`.
-/

attribute [local semireducible] Rat.mul Rat.add Rat.inv Rat.sub

/-- Truncation toward zero agrees with `⌊·⌋` on non-negative rationals. -/
lemma truncQ_of_nonneg {q : ℚ} (h : 0 ≤ q) : truncQ q = ⌊q⌋ := by
  have hn : 0 ≤ q.num := Rat.num_nonneg.mpr h
  rw [truncQ, Rat.floor_def, Int.tdiv_eq_ediv hn (Int.ofNat_nonneg q.den)]

/-- On `[0, 2^31 − 1]` the `as i32` cast is the floor. -/
lemma i32cast_eq_floor {q : ℚ} (h0 : 0 ≤ q) (h1 : q ≤ 2147483647) : i32cast q = ⌊q⌋ := by
  have hf0 : (0 : ℤ) ≤ ⌊q⌋ := Int.floor_nonneg.mpr h0
  have hfl : (⌊q⌋ : ℚ) ≤ 2147483647 := le_trans (Int.floor_le q) h1
  have hfl2 : ⌊q⌋ ≤ (2147483647 : ℤ) := by exact_mod_cast hfl
  rw [i32cast, truncQ_of_nonneg h0, min_eq_right hfl2, max_eq_right (by omega)]

/-- The function `normalize_longitude` lands in `[−180, 180)`. -/
lemma normalize_longitude_bounds (lon : ℚ) :
    -180 ≤ normalize_longitude lon ∧ normalize_longitude lon < 180 := by
  unfold normalize_longitude
  have h1 : (⌊(lon + 180) / 360⌋ : ℚ) ≤ (lon + 180) / 360 := Int.floor_le _
  have h2 : (lon + 180) / 360 < ⌊(lon + 180) / 360⌋ + 1 := Int.lt_floor_add_one _
  constructor <;> nlinarith [h1, h2]

/-- C6: the UTM zone number is `⌊(normalized longitude + 180)/6⌋ + 1`
except for the Norway exception (`lat ∈ [56,64)`, `lon ∈ [3,12)` forces
zone 32) and the Svalbard exception (`lat ∈ [72,84)`, `lon ∈ [0,42)`
selects 31/33/35/37 with boundaries at 9, 21 and 33); and
`compute_utm_zone 40 (-74)` starts with `"18"`, `compute_utm_zone 0 0`
starts with `"31"`. -/
theorem c6_utm_zone :
    (∀ lat lon : ℚ,
      ¬(56 ≤ lat ∧ lat < 64 ∧ 3 ≤ normalize_longitude lon ∧ normalize_longitude lon < 12) →
      ¬(72 ≤ lat ∧ lat < 84 ∧ 0 ≤ normalize_longitude lon ∧ normalize_longitude lon < 42) →
      utm_zone_number lat lon = ⌊(normalize_longitude lon + 180) / 6⌋ + 1) ∧
    (∀ lat lon : ℚ,
      (56 ≤ lat ∧ lat < 64 ∧ 3 ≤ normalize_longitude lon ∧ normalize_longitude lon < 12) →
      utm_zone_number lat lon = 32) ∧
    (∀ lat lon : ℚ,
      (72 ≤ lat ∧ lat < 84 ∧ 0 ≤ normalize_longitude lon ∧ normalize_longitude lon < 42) →
      utm_zone_number lat lon =
        if normalize_longitude lon < 9 then 31
        else if normalize_longitude lon < 21 then 33
        else if normalize_longitude lon < 33 then 35
        else 37) ∧
    (compute_utm_zone 40 (-74)).data.take 2 = "18".data ∧
    (compute_utm_zone 0 0).data.take 2 = "31".data := by
  refine ⟨?_, ?_, ?_, by decide, by decide⟩
  · intro lat lon h1 h2
    have hb := normalize_longitude_bounds lon
    simp only [utm_zone_number, if_neg h1, if_neg h2]
    rw [i32cast_eq_floor (by linarith [hb.1]) (by linarith [hb.2])]
  · intro lat lon h1
    simp only [utm_zone_number, if_pos h1]
  · intro lat lon h2
    have h1 : ¬(56 ≤ lat ∧ lat < 64 ∧ 3 ≤ normalize_longitude lon ∧
        normalize_longitude lon < 12) := by
      intro hc
      linarith [hc.2.1, h2.1]
    simp only [utm_zone_number, if_neg h1, if_pos h2]

/-- C6 witness: the non-exception formula at New York
(`lat = 40`, `lon = −74`, normalized longitude `−74`). -/
theorem c6_utm_zone_witness :
    utm_zone_number 40 (-74) = ⌊(normalize_longitude (-74) + 180) / 6⌋ + 1 :=
  c6_utm_zone.1 40 (-74) (by decide) (by decide)

/-- C7: outside latitude `[45.5, 48]` or longitude `[5, 11]` the CH1903
conversion fails with northing and easting both `0`; inside it succeeds;
at Bern (`46.9480 = 11737/250`, `7.4474 = 37237/5000`) it succeeds with
northing above 100 000 and easting above 500 000. -/
theorem c7_ch1903 :
    (∀ lat lon : ℚ, (lat < 91 / 2 ∨ 48 < lat ∨ lon < 5 ∨ 11 < lon) →
      lat_lon_to_ch1903 lat lon = (false, ⟨0, 0⟩)) ∧
    (∀ lat lon : ℚ, 91 / 2 ≤ lat → lat ≤ 48 → 5 ≤ lon → lon ≤ 11 →
      (lat_lon_to_ch1903 lat lon).1 = true) ∧
    ((lat_lon_to_ch1903 (11737 / 250) (37237 / 5000)).1 = true ∧
      100000 < (lat_lon_to_ch1903 (11737 / 250) (37237 / 5000)).2.northing ∧
      500000 < (lat_lon_to_ch1903 (11737 / 250) (37237 / 5000)).2.easting) := by
  refine ⟨?_, ?_, by decide⟩
  · intro lat lon h
    have hg : ¬(91 / 2 ≤ lat ∧ lat ≤ 48) ∨ ¬(5 ≤ lon ∧ lon ≤ 11) := by
      rcases h with h | h | h | h
      · exact Or.inl (by intro hc; linarith [hc.1])
      · exact Or.inl (by intro hc; linarith [hc.2])
      · exact Or.inr (by intro hc; linarith [hc.1])
      · exact Or.inr (by intro hc; linarith [hc.2])
    simp only [lat_lon_to_ch1903, if_pos hg]
  · intro lat lon h1 h2 h3 h4
    have hg : ¬(¬(91 / 2 ≤ lat ∧ lat ≤ 48) ∨ ¬(5 ≤ lon ∧ lon ≤ 11)) := by
      push_neg
      exact ⟨⟨h1, h2⟩, h3, h4⟩
    simp only [lat_lon_to_ch1903, if_neg hg]

/-- C7 witness: the out-of-range case at `(50, 0)` (the spec's own
failing example). -/
theorem c7_ch1903_witness : lat_lon_to_ch1903 50 0 = (false, ⟨0, 0⟩) :=
  c7_ch1903.1 50 0 (by decide)

/-- C8 (amended): the altitude token is `max(1, trunc(scale×143/10^6))`
— the `as i32` cast truncates rather than rounds — equal to the floor
for the non-negative scales that occur; at `500000` it is `71` (as the
repository's own test asserts), not `72`. -/
theorem c8_altitude :
    (∀ s : ℚ, 0 ≤ s → s ≤ 10 ^ 10 →
      get_altitude s = max 1 ⌊s * 143 / 1000000⌋) ∧
    get_altitude 500000 = 71 ∧ get_altitude 1000000 = 143 ∧ get_altitude 100 = 1 := by
  refine ⟨?_, by decide, by decide, by decide⟩
  intro s h0 h1
  rw [get_altitude, i32cast_eq_floor (by positivity) (by linarith), max_comm]

/-- C8 witness: the truncated-floor form evaluated at scale 500 000. -/
theorem c8_altitude_witness : get_altitude 500000 = max 1 ⌊(500000 : ℚ) * 143 / 1000000⌋ :=
  c8_altitude.1 500000 (by decide) (by decide)

/-- C8 counterexample: at scale 500 000 the code yields 71, not the
claimed `round(71.5) = 72`. -/
theorem c8_altitude_counter : get_altitude 500000 = 71 ∧ (71 : ℤ) ≠ 72 := by decide

/-- C9: `scale_dim` converts `dim` by textual replacement of `km` with
`000`; `3km` becomes scale `30000`, but `1.5km` becomes `1.5000` metres
and hence scale `15`, not the `15000` that a true ×1000 conversion (the
spec's stated semantics) would give. -/
theorem c9_scale_dim_eval :
    attrLookup (scale_dim [("dim", "1.5km")]) "scale" = some "15" ∧
    attrLookup (scale_dim [("dim", "1.5km")]) "scale" ≠ some "15000" ∧
    attrLookup (scale_dim [("dim", "3km")]) "scale" = some "30000" ∧
    attrLookup (scale_dim [("dim", "500m")]) "scale" = some "5000" := by
  refine ⟨by decide, by decide, by decide, by decide⟩

/-- On success, `parse_coordinate_format` leaves the min/max bound
fields untouched (it only writes `latdeg`, `londeg`, `pieces`, `coor`). -/
lemma pcf_preserves {g g1 : GeoParam} {v : CoorVals}
    (h : parse_coordinate_format g = .ok (g1, v)) :
    g1.latdeg_min = g.latdeg_min ∧ g1.londeg_min = g.londeg_min ∧
    g1.latdeg_max = g.latdeg_max ∧ g1.londeg_max = g.londeg_max := by
  unfold parse_coordinate_format at h
  repeat' split at h
  all_goals (try exact (Except.noConfusion h))
  all_goals (injection h with h; injection h with h1 h2; subst h1; simp)

/-- On success, `get_coor` leaves the min/max bound fields untouched. -/
lemma get_coor_preserves {g gp : GeoParam} (h : g.get_coor = .ok gp) :
    gp.latdeg_min = g.latdeg_min ∧ gp.londeg_min = g.londeg_min ∧
    gp.latdeg_max = g.latdeg_max ∧ gp.londeg_max = g.londeg_max := by
  unfold GeoParam.get_coor at h
  split at h
  · exact (Except.noConfusion h)
  · split at h
    · exact (Except.noConfusion h)
    · rename_i g1 v heq
      split at h
      · injection h with h
        obtain ⟨a, b, c, d⟩ := pcf_preserves heq
        subst h
        simp only [convert_to_decimal_degrees]
        exact ⟨a, b, c, d⟩
      · exact (Except.noConfusion h)

/-- Unpacking a passed `validate_ranges` check into its inequalities. -/
lemma validate_ranges_true {g : GeoParam} {v : CoorVals} (h : validate_ranges g v = true) :
    (-90 ≤ g.latdeg ∧ g.latdeg ≤ 90) ∧ (-360 ≤ g.londeg ∧ g.londeg ≤ 360) ∧
    (0 ≤ v.latmin ∧ v.latmin ≤ 60) ∧ (0 ≤ v.lonmin ∧ v.lonmin ≤ 60) ∧
    (0 ≤ v.latsec ∧ v.latsec ≤ 60) ∧ (0 ≤ v.lonsec ∧ v.lonsec ≤ 60) := by
  simp only [validate_ranges, valid_degree_range, valid_minsec_range, Bool.and_eq_true,
    decide_eq_true_eq] at h
  exact ⟨h.1.1.1.1.1, h.1.1.1.1.2, h.1.1.1.2, h.1.1.2, h.1.2, h.2⟩

/-- A hemisphere factor is `−1` or `1`. -/
lemma dir_factor_cases (dir neg_dir : String) :
    direction_factor dir neg_dir = -1 ∨ direction_factor dir neg_dir = 1 := by
  unfold direction_factor
  split
  · exact Or.inl rfl
  · exact Or.inr rfl

/-- The decimal-degree combination step grows the magnitude of a degree
value bounded by `B` by at most `61/60` (minutes ≤ 60, seconds ≤ 60). -/
lemma combined_bound {d m s B f : ℚ} (hd : -B ≤ d ∧ d ≤ B) (hm : 0 ≤ m ∧ m ≤ 60)
    (hs : 0 ≤ s ∧ s ≤ 60) (hf : f = -1 ∨ f = 1) :
    -(B + 61 / 60) ≤ (d + copysignQ (m + s / 60) d / 60) * f ∧
    (d + copysignQ (m + s / 60) d / 60) * f ≤ B + 61 / 60 := by
  unfold copysignQ
  rcases hf with hf | hf <;> subst hf <;> split_ifs with hneg <;> constructor <;>
    nlinarith [hm.1, hm.2, hs.1, hs.2, hd.1, hd.2]

/-- Bounds of every coordinate produced by a successful `get_coor`:
degrees validated to ±90/±360 plus at most `61/60` from minutes and
seconds. -/
lemma get_coor_bounds {g gp : GeoParam} (h : g.get_coor = .ok gp) :
    (-(90 + 61 / 60) ≤ gp.latdeg ∧ gp.latdeg ≤ 90 + 61 / 60) ∧
    (-(360 + 61 / 60) ≤ gp.londeg ∧ gp.londeg ≤ 360 + 61 / 60) := by
  unfold GeoParam.get_coor at h
  split at h
  · exact (Except.noConfusion h)
  · split at h
    · exact (Except.noConfusion h)
    · rename_i g1 v heq
      split at h
      · rename_i hval
        injection h with h
        subst h
        obtain ⟨hlat, hlon, hm1, hm2, hs1, hs2⟩ := validate_ranges_true hval
        simp only [convert_to_decimal_degrees]
        exact ⟨combined_bound hlat hm1 hs1 (dir_factor_cases v.lat_ns "S"),
               combined_bound hlon hm2 hs2 (dir_factor_cases v.lon_ew "W")⟩
      · exact (Except.noConfusion h)

/-- After `first_stage` (one coordinate plus `init_min_max`) the min and
max fields equal the point coordinate, which is in bounds. -/
lemma first_stage_spec {param : String} {g : GeoParam}
    (h : GeoParam.first_stage param = .ok g) :
    g.latdeg_min = g.latdeg ∧ g.latdeg_max = g.latdeg ∧
    g.londeg_min = g.londeg ∧ g.londeg_max = g.londeg ∧
    (-(90 + 61 / 60) ≤ g.latdeg ∧ g.latdeg ≤ 90 + 61 / 60) ∧
    (-(360 + 61 / 60) ≤ g.londeg ∧ g.londeg ≤ 360 + 61 / 60) := by
  unfold GeoParam.first_stage at h
  split at h
  · exact (Except.noConfusion h)
  · rename_i g0 heq
    injection h with h
    subst h
    exact ⟨rfl, rfl, rfl, rfl, (get_coor_bounds heq).1, (get_coor_bounds heq).2⟩

/-- Specification of `update_range_bounds` when the current bounds are
degenerate (as `init_min_max` leaves them): min/max of the two
coordinates, midpoint, and the literal cache cleared. -/
lemma update_range_bounds_spec (g : GeoParam) (h1 : g.latdeg_min = g.latdeg_max)
    (h2 : g.londeg_min = g.londeg_max) :
    g.update_range_bounds.latdeg_min = min g.latdeg g.latdeg_max ∧
    g.update_range_bounds.latdeg_max = max g.latdeg g.latdeg_max ∧
    g.update_range_bounds.londeg_min = min g.londeg g.londeg_max ∧
    g.update_range_bounds.londeg_max = max g.londeg g.londeg_max ∧
    g.update_range_bounds.latdeg =
      (g.update_range_bounds.latdeg_max + g.update_range_bounds.latdeg_min) / 2 ∧
    g.update_range_bounds.londeg =
      (g.update_range_bounds.londeg_max + g.update_range_bounds.londeg_min) / 2 ∧
    g.update_range_bounds.coor = [] := by
  by_cases hA : g.latdeg < g.latdeg_max
  · by_cases hB : g.londeg < g.londeg_max
    · simp only [GeoParam.update_range_bounds, if_pos hA, if_pos hB]
      exact ⟨(min_eq_left hA.le).symm, (max_eq_right hA.le).symm,
             (min_eq_left hB.le).symm, (max_eq_right hB.le).symm,
             by trivial, by trivial, by trivial⟩
    · simp only [GeoParam.update_range_bounds, if_pos hA, if_neg hB]
      exact ⟨(min_eq_left hA.le).symm, (max_eq_right hA.le).symm,
             h2 ▸ (min_eq_right (not_lt.mp hB)).symm, (max_eq_left (not_lt.mp hB)).symm,
             by trivial, by trivial, by trivial⟩
  · by_cases hB : g.londeg < g.londeg_max
    · simp only [GeoParam.update_range_bounds, if_neg hA, if_pos hB]
      exact ⟨h1 ▸ (min_eq_right (not_lt.mp hA)).symm, (max_eq_left (not_lt.mp hA)).symm,
             (min_eq_left hB.le).symm, (max_eq_right hB.le).symm,
             by trivial, by trivial, by trivial⟩
    · simp only [GeoParam.update_range_bounds, if_neg hA, if_neg hB]
      exact ⟨h1 ▸ (min_eq_right (not_lt.mp hA)).symm, (max_eq_left (not_lt.mp hA)).symm,
             h2 ▸ (min_eq_right (not_lt.mp hB)).symm, (max_eq_left (not_lt.mp hB)).symm,
             by trivial, by trivial, by trivial⟩

/-- C1 (amended): every successful `GeoParam::new` yields final decimal
degrees with `|lat| ≤ 90 + 61/60` and `|lon| ≤ 360 + 61/60`.  The
spec's stated invariant `|lat| ≤ 90`, `|lon| ≤ 360` fails because
validation runs on the degrees component alone, before minutes (≤ 60)
and seconds (≤ 60) are combined in (see `c1_counterexample`). -/
theorem c1_new_degree_bounds (param : String) (g : GeoParam)
    (h : GeoParam.new param = .ok g) :
    (-(90 + 61 / 60) ≤ g.latdeg ∧ g.latdeg ≤ 90 + 61 / 60) ∧
    (-(360 + 61 / 60) ≤ g.londeg ∧ g.londeg ≤ 360 + 61 / 60) := by
  unfold GeoParam.new at h
  split at h
  · exact (Except.noConfusion h)
  · rename_i g0 hfs
    obtain ⟨e1, e2, e3, e4, hb0lat, hb0lon⟩ := first_stage_spec hfs
    split at h
    · split at h
      · exact (Except.noConfusion h)
      · rename_i g2 hgc
        injection h with h
        subst h
        have hb2 := get_coor_bounds hgc
        have hpres := get_coor_preserves hgc
        have hminA : g2.latdeg_min = g2.latdeg_max := by
          rw [hpres.1, hpres.2.2.1]
          show g0.latdeg_min = g0.latdeg_max
          rw [e1, e2]
        have hminB : g2.londeg_min = g2.londeg_max := by
          rw [hpres.2.1, hpres.2.2.2]
          show g0.londeg_min = g0.londeg_max
          rw [e3, e4]
        obtain ⟨u1, u2, u3, u4, u5, u6, u7⟩ := update_range_bounds_spec g2 hminA hminB
        have hmax2 : g2.latdeg_max = g0.latdeg := by
          rw [hpres.2.2.1]
          exact e2
        have hmax2l : g2.londeg_max = g0.londeg := by
          rw [hpres.2.2.2]
          exact e4
        constructor
        · rw [u5, u1, u2, hmax2]
          constructor
          · have l1 : -(90 + 61 / 60) ≤ min g2.latdeg g0.latdeg :=
              le_min hb2.1.1 hb0lat.1
            have l2 : -(90 + 61 / 60) ≤ max g2.latdeg g0.latdeg :=
              le_trans hb2.1.1 (le_max_left _ _)
            linarith
          · have l1 : min g2.latdeg g0.latdeg ≤ 90 + 61 / 60 :=
              le_trans (min_le_left _ _) hb2.1.2
            have l2 : max g2.latdeg g0.latdeg ≤ 90 + 61 / 60 :=
              max_le hb2.1.2 hb0lat.2
            linarith
        · rw [u6, u3, u4, hmax2l]
          constructor
          · have l1 : -(360 + 61 / 60) ≤ min g2.londeg g0.londeg :=
              le_min hb2.2.1 hb0lon.1
            have l2 : -(360 + 61 / 60) ≤ max g2.londeg g0.londeg :=
              le_trans hb2.2.1 (le_max_left _ _)
            linarith
          · have l1 : min g2.londeg g0.londeg ≤ 360 + 61 / 60 :=
              le_trans (min_le_left _ _) hb2.2.2
            have l2 : max g2.londeg g0.londeg ≤ 360 + 61 / 60 :=
              max_le hb2.2.2 hb0lon.2
            linarith
    · injection h with h
      subst h
      exact ⟨hb0lat, hb0lon⟩

/-- C1 counterexample: `"90 60 N 0 0 E"` parses successfully (degrees 90
and minutes 60 both pass validation) but yields `lat_deg = 91 > 90`,
refuting the claimed invariant `-90 ≤ lat_deg ≤ 90`. -/
theorem c1_counterexample :
    (GeoParam.new "90 60 N 0 0 E").map GeoParam.latdeg = .ok 91 ∧ ¬((91 : ℚ) ≤ 90) :=
  ⟨by decide, by decide⟩

/-- C1 witness: the amended bounds instantiated on the parse of
`"40 N 74 W"`. -/
theorem c1_witness :
    (-(90 + 61 / 60) ≤
        (GeoParam.mk 40 (-74) 40 (-74) 40 (-74) [] ["40", "N", "74", "W"]).latdeg ∧
      (GeoParam.mk 40 (-74) 40 (-74) 40 (-74) [] ["40", "N", "74", "W"]).latdeg ≤
        90 + 61 / 60) ∧
    (-(360 + 61 / 60) ≤
        (GeoParam.mk 40 (-74) 40 (-74) 40 (-74) [] ["40", "N", "74", "W"]).londeg ∧
      (GeoParam.mk 40 (-74) 40 (-74) 40 (-74) [] ["40", "N", "74", "W"]).londeg ≤
        360 + 61 / 60) :=
  c1_new_degree_bounds "40 N 74 W" _ (by decide)

/-- C2 helper: a token list matching none of the four layouts makes
`parse_coordinate_format` fail with the unrecognized-format error. -/
lemma pcf_unrecognized {g : GeoParam} (h : ¬ matchesLayout g.pieces) :
    parse_coordinate_format g = .error .unrecognizedFormat := by
  unfold matchesLayout at h
  push_neg at h
  obtain ⟨h1, h2, h3, h4⟩ := h
  unfold parse_coordinate_format
  split
  · rename_i i heq
    rw [heq] at h1
    simp at h1
  · rw [if_neg, if_neg, if_neg]
    · intro hc
      exact h4 hc.1 hc.2
    · intro hc
      exact h3 hc.1 hc.2
    · intro hc
      exact h2 hc.1 hc.2

/-- C2 helper: `get_coor` propagates the unrecognized-format error. -/
lemma get_coor_unrecognized {g : GeoParam} (hne : g.pieces ≠ [])
    (h : ¬ matchesLayout g.pieces) : g.get_coor = .error .unrecognizedFormat := by
  have he : g.pieces.isEmpty = false := by
    cases hp : g.pieces <;> simp_all
  unfold GeoParam.get_coor
  rw [he]
  simp [pcf_unrecognized h]

/-- C2 helper: a failed range validation makes `get_coor` fail with the
out-of-range error. -/
lemma get_coor_out_of_range {g g1 : GeoParam} {v : CoorVals} (hne : g.pieces ≠ [])
    (hpcf : parse_coordinate_format g = .ok (g1, v))
    (hval : validate_ranges g1 v = false) : g.get_coor = .error .outOfRange := by
  have he : g.pieces.isEmpty = false := by
    cases hp : g.pieces <;> simp_all
  unfold GeoParam.get_coor
  rw [he]
  simp [hpcf, hval]

/-- C2: `GeoParam::new` fails with exactly the three error kinds under
the stated conditions — no tokens gives `NoCoordinatesProvided`, a
non-empty token stream matching none of the four layouts gives
`UnrecognizedFormat`, a violated degree/minute/second bound gives
`OutOfRange` — and in particular on `""`,
`"invalid coordinates here"` and `"91 N 180 E"`. -/
theorem c2_error_kinds :
    (∀ s : String, pieces_of s = [] →
      GeoParam.new s = .error .noCoordinatesProvided) ∧
    (∀ s : String, pieces_of s ≠ [] → ¬ matchesLayout (pieces_of s) →
      GeoParam.new s = .error .unrecognizedFormat) ∧
    (∀ (s : String) (g1 : GeoParam) (v : CoorVals), pieces_of s ≠ [] →
      parse_coordinate_format { pieces := pieces_of s } = .ok (g1, v) →
      validate_ranges g1 v = false →
      GeoParam.new s = .error .outOfRange) ∧
    GeoParam.new "" = .error .noCoordinatesProvided ∧
    GeoParam.new "invalid coordinates here" = .error .unrecognizedFormat ∧
    GeoParam.new "91 N 180 E" = .error .outOfRange := by
  refine ⟨?_, ?_, ?_, by decide, by decide, by decide⟩
  · intro s hs
    have he : ({ pieces := pieces_of s } : GeoParam).pieces.isEmpty = true := by
      simp [hs]
    simp [GeoParam.new, GeoParam.first_stage, GeoParam.get_coor, he]
  · intro s hne hnm
    have hgc : ({ pieces := pieces_of s } : GeoParam).get_coor =
        .error .unrecognizedFormat := get_coor_unrecognized hne hnm
    simp [GeoParam.new, GeoParam.first_stage, hgc]
  · intro s g1 v hne hpcf hval
    have hgc : ({ pieces := pieces_of s } : GeoParam).get_coor =
        .error .outOfRange := get_coor_out_of_range hne hpcf hval
    simp [GeoParam.new, GeoParam.first_stage, hgc]

/-- C2 witness: the unrecognized-format case at the spec's own example
input. -/
theorem c2_error_kinds_witness :
    GeoParam.new "invalid coordinates here" = .error .unrecognizedFormat :=
  c2_error_kinds.2.1 "invalid coordinates here" (by decide) (by decide)

/-- C3: for every successfully parsed range input (`<first> to <second>`)
the smaller latitude becomes `latdeg_min` and the larger `latdeg_max`
(independently for longitude), the point value is the midpoint of min
and max on both axes, and the coordinate-literal cache `coor` is
cleared; in particular `"40 N 74 W to 41 N 73 W"` yields
`lat_min = 40`, `lat = 40.5`, `lat_max = 41`, `lon_min = −74`,
`lon = −73.5`, `lon_max = −73` and empty `coor`. -/
theorem c3_range_midpoint :
    (∀ (param : String) (g g2 : GeoParam),
      GeoParam.first_stage param = .ok g →
      g.pieces.head? = some "to" →
      GeoParam.get_coor { g with pieces := g.pieces.tail } = .ok g2 →
      GeoParam.new param = .ok g2.update_range_bounds ∧
      g2.update_range_bounds.latdeg_min = min g2.latdeg g.latdeg ∧
      g2.update_range_bounds.latdeg_max = max g2.latdeg g.latdeg ∧
      g2.update_range_bounds.londeg_min = min g2.londeg g.londeg ∧
      g2.update_range_bounds.londeg_max = max g2.londeg g.londeg ∧
      g2.update_range_bounds.latdeg =
        (g2.update_range_bounds.latdeg_min + g2.update_range_bounds.latdeg_max) / 2 ∧
      g2.update_range_bounds.londeg =
        (g2.update_range_bounds.londeg_min + g2.update_range_bounds.londeg_max) / 2 ∧
      g2.update_range_bounds.coor = []) ∧
    ((GeoParam.new "40 N 74 W to 41 N 73 W").map
        (fun g => (g.latdeg_min, g.latdeg, g.latdeg_max)) = .ok (40, 81 / 2, 41) ∧
      (GeoParam.new "40 N 74 W to 41 N 73 W").map
        (fun g => (g.londeg_min, g.londeg, g.londeg_max)) = .ok (-74, -147 / 2, -73) ∧
      (GeoParam.new "40 N 74 W to 41 N 73 W").map GeoParam.coor = .ok []) := by
  refine ⟨?_, by decide, by decide, by decide⟩
  intro param g g2 hfs hto hgc
  obtain ⟨e1, e2, e3, e4, _, _⟩ := first_stage_spec hfs
  have hpres := get_coor_preserves hgc
  have hminA : g2.latdeg_min = g2.latdeg_max := by
    rw [hpres.1, hpres.2.2.1]
    show g.latdeg_min = g.latdeg_max
    rw [e1, e2]
  have hminB : g2.londeg_min = g2.londeg_max := by
    rw [hpres.2.1, hpres.2.2.2]
    show g.londeg_min = g.londeg_max
    rw [e3, e4]
  have hmax2 : g2.latdeg_max = g.latdeg := by
    rw [hpres.2.2.1]
    exact e2
  have hmax2l : g2.londeg_max = g.londeg := by
    rw [hpres.2.2.2]
    exact e4
  obtain ⟨u1, u2, u3, u4, u5, u6, u7⟩ := update_range_bounds_spec g2 hminA hminB
  refine ⟨?_, ?_, ?_, ?_, ?_, ?_, ?_, u7⟩
  · unfold GeoParam.new
    rw [hfs]
    simp only [hto, if_pos]
    rw [hgc]
  · rw [u1, hmax2]
  · rw [u2, hmax2]
  · rw [u3, hmax2l]
  · rw [u4, hmax2l]
  · rw [u5]
    ring
  · rw [u6]
    ring

/-- C3 witness: the range flow instantiated on
`"40 N 74 W to 41 N 73 W"` with the two explicitly evaluated
intermediate states. -/
theorem c3_witness :
    GeoParam.new "40 N 74 W to 41 N 73 W" =
      .ok (GeoParam.mk 41 (-73) 40 (-74) 40 (-74) [] ["41", "N", "73", "W"]).update_range_bounds :=
  (c3_range_midpoint.1 "40 N 74 W to 41 N 73 W"
    (GeoParam.mk 40 (-74) 40 (-74) 40 (-74) ["to", "41", "N", "73", "W"] ["40", "N", "74", "W"])
    (GeoParam.mk 41 (-73) 40 (-74) 40 (-74) [] ["41", "N", "73", "W"])
    (by decide) (by decide) (by decide)).1

/-- C10: a degree/minute/second token that does not parse as a number is
silently treated as `0.0` (`parse().unwrap_or(0.0)`), so an input whose
tokens match a directional layout succeeds even with non-numeric
degrees; in particular `"abc N def W"` parses to `lat = 0`, `lon = 0`
instead of failing with `UnrecognizedFormat`. -/
theorem c10_unparsable_zero :
    (∀ s : String, parseF64 s = none → (parseF64 s).getD 0 = 0) ∧
    (∀ t0 t1 t2 t3 : String,
      charIndex t0 ';' = none → is_coor t1 t3 = true →
      parseF64 t0 = none → parseF64 t2 = none →
      ∃ g : GeoParam, GeoParam.get_coor { pieces := [t0, t1, t2, t3] } = .ok g ∧
        g.latdeg = 0 ∧ g.londeg = 0) ∧
    (GeoParam.new "abc N def W").map (fun g => (g.latdeg, g.londeg)) = .ok (0, 0) := by
  refine ⟨?_, ?_, by decide⟩
  · intro s hs
    rw [hs]
    rfl
  · intro t0 t1 t2 t3 h0 hic hp0 hp2
    have hpcf : parse_coordinate_format { pieces := [t0, t1, t2, t3] } =
        .ok ({ latdeg := 0, londeg := 0, pieces := [],
               coor := [ratDisplay 0, t1, ratDisplay 0, t3] }, ⟨t1, t3, 0, 0, 0, 0⟩) := by
      unfold parse_coordinate_format
      simp [h0, hic, hp0, hp2]
    have hval : validate_ranges
        { latdeg := 0, londeg := 0, pieces := [],
          coor := [ratDisplay 0, t1, ratDisplay 0, t3] } ⟨t1, t3, 0, 0, 0, 0⟩ = true := by
      simp only [validate_ranges, valid_degree_range, valid_minsec_range, Bool.and_eq_true,
        decide_eq_true_eq]
      norm_num
    refine ⟨convert_to_decimal_degrees
        { latdeg := 0, londeg := 0, pieces := [],
          coor := [ratDisplay 0, t1, ratDisplay 0, t3] } ⟨t1, t3, 0, 0, 0, 0⟩, ?_, ?_, ?_⟩
    · unfold GeoParam.get_coor
      rw [show ([t0, t1, t2, t3].isEmpty) = false from rfl]
      rw [hpcf]
      simp only [hval]
      rfl
    · simp [convert_to_decimal_degrees, copysignQ]
    · simp [convert_to_decimal_degrees, copysignQ]

/-- C10 witness: the layout-matched non-numeric case instantiated at
tokens `abc N def W`. -/
theorem c10_witness :
    ∃ g : GeoParam, GeoParam.get_coor { pieces := ["abc", "N", "def", "W"] } = .ok g ∧
      g.latdeg = 0 ∧ g.londeg = 0 :=
  c10_unparsable_zero.2.1 "abc" "N" "def" "W" (by decide) (by decide) (by decide) (by decide)

/-- Folding `lastStep` means the same as `lastValueFor`. -/
lemma lastValueFor_eq_foldl (k : String) (ts : List String) :
    lastValueFor k ts = ts.foldl (lastStep k) none := by
  unfold lastValueFor lastStep
  rfl

/-- A key without a colon can never equal a synthetic `arg:` key. -/
lemma no_colon_ne_arg {k : String} (attr : String) (hk : charIndex k ':' = none) :
    k ≠ "arg:" ++ attr := by
  intro hek
  subst hek
  have hmem : ':' ∈ ("arg:" ++ attr).data := by
    rw [show ("arg:" ++ attr).data = "arg:".data ++ attr.data from rfl]
    exact List.mem_append_left _ (by decide)
  have hnone := List.findIdx?_eq_none_iff.mp hk ':' hmem
  simp at hnone

/-- Lookup after one drain step: a key:value token overwrites its main
key, everything else leaves the key unchanged (for keys without a colon
other than `scale`). -/
lemma process_token_lookup {s : String} {m : AttrMap} {k : String}
    (hk : charIndex k ':' = none) (hs : k ≠ "scale") :
    List.lookup k (process_token s m) =
      match tokenMainBinding s with
      | some (a, v) => if k = a then some v else List.lookup k m
      | none => List.lookup k m := by
  cases hc : colonPos s with
  | none =>
      cases hp : parseI32 s with
      | none => simp only [process_token, tokenMainBinding, hc, hp]
      | some num =>
          simp only [process_token, tokenMainBinding, hc, hp]
          split
          · simp only [attrInsert, List.lookup]
            have hx : (k == "scale") = false := by simp [hs]
            rw [hx]
          · rfl
  | some i =>
      cases hpar : parenPos (strDrop s (i + 1)) with
      | none =>
          simp only [process_token, tokenMainBinding, hc, hpar, attrInsert, List.lookup]
          by_cases hkk : k = strTake s i
          · have hx : (k == strTake s i) = true := by simp [hkk]
            rw [hx, if_pos hkk]
          · have hx : (k == strTake s i) = false := by simp [hkk]
            rw [hx, if_neg hkk]
      | some jk =>
          obtain ⟨j, kk⟩ := jk
          have harg := no_colon_ne_arg (strTake s i) hk
          have hx2 : (k == "arg:" ++ strTake s i) = false := by simp [harg]
          simp only [process_token, tokenMainBinding, hc, hpar, attrInsert, List.lookup]
          by_cases hkk : k = strTake s i
          · have hx : (k == strTake s i) = true := by simp [hkk]
            rw [hx, if_pos hkk]
          · have hx : (k == strTake s i) = false := by simp [hkk]
            rw [hx, hx2, if_neg hkk]

/-- Changing the accumulator of the `lastStep` fold only matters when no
token binds the key. -/
lemma foldl_lastStep_init (k : String) :
    ∀ (ts : List String) (acc : Option String),
      ts.foldl (lastStep k) acc =
        match ts.foldl (lastStep k) none with
        | some v => some v
        | none => acc := by
  intro ts
  induction ts with
  | nil => intro acc; rfl
  | cons t r ih =>
      intro acc
      rw [List.foldl_cons, List.foldl_cons, ih (lastStep k acc t), ih (lastStep k none t)]
      cases hr : r.foldl (lastStep k) none with
      | some v => rfl
      | none =>
          unfold lastStep
          cases hb : tokenMainBinding t with
          | none => rfl
          | some av =>
              obtain ⟨a, v⟩ := av
              by_cases hak : a = k
              · simp [hak]
              · simp [hak]

/-- Unfolding `lastValueFor` over a newly drained token. -/
lemma lastValueFor_cons (k s : String) (rest : List String) :
    lastValueFor k (s :: rest) =
      match lastValueFor k rest with
      | some v => some v
      | none => lastStep k none s := by
  rw [lastValueFor_eq_foldl, List.foldl_cons, foldl_lastStep_init, ← lastValueFor_eq_foldl]

/-- Unfolding `lastValueFor` over a final token. -/
lemma lastValueFor_append_single (k : String) (l : List String) (t : String) :
    lastValueFor k (l ++ [t]) = lastStep k (lastValueFor k l) t := by
  rw [lastValueFor_eq_foldl, List.foldl_append, List.foldl_cons, List.foldl_nil,
    ← lastValueFor_eq_foldl]

/-- The drain loop's final lookup for a colon-free key other than
`scale` is the binding of the last-drained token that binds it. -/
lemma attr_drain_lookup (k : String) (hk : charIndex k ':' = none) (hs : k ≠ "scale") :
    ∀ (ts : List String) (m : AttrMap),
      List.lookup k (attr_drain ts m) =
        match lastValueFor k ts with
        | some v => some v
        | none => List.lookup k m := by
  intro ts
  induction ts with
  | nil => intro m; rfl
  | cons s rest ih =>
      intro m
      rw [attr_drain, ih (process_token s m), process_token_lookup hk hs, lastValueFor_cons]
      cases hr : lastValueFor k rest with
      | some v => rfl
      | none =>
          unfold lastStep
          cases hb : tokenMainBinding s with
          | none => rfl
          | some av =>
              obtain ⟨a, v⟩ := av
              by_cases hak : a = k
              · simp [hak]
              · have hka : ¬(k = a) := fun he => hak he.symm
                simp [hak, hka]

/-- The last binder in reverse order is the first binder in source
order. -/
lemma lastValueFor_reverse (k : String) (ts : List String) :
    lastValueFor k ts.reverse = firstValueFor k ts := by
  induction ts with
  | nil => rfl
  | cons t r ih =>
      rw [List.reverse_cons, lastValueFor_append_single, ih]
      unfold firstValueFor lastStep
      rw [List.findSome?_cons]
      cases hb : tokenMainBinding t with
      | none => rfl
      | some av =>
          obtain ⟨a, v⟩ := av
          by_cases hak : a = k
          · simp [hak]
          · simp [hak]

/-- C5 (amended): tokens are drained from the end of `pieces`, and for a
key:value attribute name that appears more than once the value present
in the final map is that of the LAST-drained occurrence — i.e. the
token EARLIEST in the source string — because each `HashMap::insert`
overwrites (the claim's "first-drained wins" direction is refuted by
`c5_counterexample`).  Stated for any colon-free key other than `scale`
(the one key with a no-overwrite guard). -/
theorem c5_last_drained_wins (g : GeoParam) (k : String)
    (hk : charIndex k ':' = none) (hs : k ≠ "scale") :
    List.lookup k g.get_attr = firstValueFor k g.pieces := by
  unfold GeoParam.get_attr
  rw [attr_drain_lookup k hk hs, lastValueFor_reverse]
  cases hf : firstValueFor k g.pieces <;> rfl

/-- C5 witness: the drain evaluated on two duplicated `type:` tokens. -/
theorem c5_witness :
    List.lookup "type"
        (GeoParam.mk 0 0 0 0 0 0 ["type:x", "type:y"] []).get_attr =
      firstValueFor "type" ["type:x", "type:y"] :=
  c5_last_drained_wins (GeoParam.mk 0 0 0 0 0 0 ["type:x", "type:y"] []) "type"
    (by decide) (by decide)

/-- C5 counterexample: on `"40_N_74_W_type:a_type:b"` the resulting map
holds `type = "a"` (earliest in source, last drained), not the `"b"`
(latest in source, first drained) that the claim predicts. -/
theorem c5_counterexample :
    (GeoParam.new "40_N_74_W_type:a_type:b").map
        (fun g => List.lookup "type" g.get_attr) = .ok (some "a") ∧
      some "a" ≠ some "b" :=
  ⟨by decide, by decide⟩

/-- Two strings with the same character data are equal. -/
lemma string_data_inj {a b : String} (h : a.data = b.data) : a = b := by
  cases a
  cases b
  cases h
  rfl

/-- One-step unfolding of the fuelled replace scanner. -/
lemma listReplaceF_succ (pat rep : List Char) (c : Char) (cs : List Char) (fuel : ℕ) :
    listReplaceF pat rep (fuel + 1) (c :: cs) =
      if pat ≠ [] ∧ pat.isPrefixOf (c :: cs) then
        rep ++ listReplaceF pat rep fuel (cs.drop (pat.length - 1))
      else c :: listReplaceF pat rep fuel cs := rfl

/-- The fuel is irrelevant as long as it covers the list length. -/
lemma listReplaceF_congr (pat rep : List Char) :
    ∀ (f1 : ℕ), ∀ (s : List Char) (f2 : ℕ), s.length ≤ f1 → s.length ≤ f2 →
      listReplaceF pat rep f1 s = listReplaceF pat rep f2 s := by
  intro f1
  induction f1 with
  | zero =>
      intro s f2 h1 _
      have : s = [] := List.length_eq_zero.mp (Nat.le_zero.mp h1)
      subst this
      cases f2 <;> rfl
  | succ f ih =>
      intro s f2 h1 h2
      cases s with
      | nil => cases f2 <;> rfl
      | cons c cs =>
          cases f2 with
          | zero => simp at h2
          | succ f2p =>
              have hc1 : cs.length ≤ f := by simpa using h1
              have hc2 : cs.length ≤ f2p := by simpa using h2
              have hd : (cs.drop (pat.length - 1)).length ≤ cs.length := by
                rw [List.length_drop]
                omega
              rw [listReplaceF_succ, listReplaceF_succ]
              split
              · rw [ih (cs.drop (pat.length - 1)) f2p (le_trans hd hc1) (le_trans hd hc2)]
              · rw [ih cs f2p hc1 hc2]

/-- The step equation of `listReplace`: replace a leftmost match and
continue after it, otherwise keep the head character and continue. -/
lemma listReplace_cons (pat rep : List Char) (c : Char) (cs : List Char) :
    listReplace pat rep (c :: cs) =
      if pat ≠ [] ∧ pat.isPrefixOf (c :: cs) then
        rep ++ listReplace pat rep (cs.drop (pat.length - 1))
      else c :: listReplace pat rep cs := by
  unfold listReplace
  rw [show (c :: cs).length = cs.length + 1 from rfl, listReplaceF_succ]
  split
  · rw [listReplaceF_congr pat rep cs.length (cs.drop (pat.length - 1))
      (cs.drop (pat.length - 1)).length (by rw [List.length_drop]; omega) (le_refl _)]
  · rfl

/-- Occurrence test unfolded over a head character. -/
lemma occursIn_cons (pat : List Char) (c : Char) (cs : List Char) :
    occursIn pat (c :: cs) = (pat.isPrefixOf (c :: cs) || occursIn pat cs) := by
  unfold occursIn
  rw [show (c :: cs).length + 1 = (cs.length + 1) + 1 from rfl,
    List.range_succ_eq_map, List.any_cons, List.any_map]
  congr 1

/-- Text without an occurrence of the pattern is left verbatim. -/
lemma listReplace_of_not_occurs (pat rep : List Char) :
    ∀ s : List Char, occursIn pat s = false → listReplace pat rep s = s := by
  intro s
  induction s with
  | nil => intro _; rfl
  | cons c cs ih =>
      intro h
      rw [occursIn_cons, Bool.or_eq_false_iff] at h
      rw [listReplace_cons, if_neg (by simp [h.1]), ih h.2]

/-- Any list is a prefix of itself followed by anything. -/
lemma isPrefixOf_append_self : ∀ (p t : List Char), p.isPrefixOf (p ++ t) = true := by
  intro p
  induction p with
  | nil => intro t; simp [List.isPrefixOf]
  | cons c cs ih => intro t; simp [List.isPrefixOf, ih]

/-- The replacement of the leftmost occurrence: text before the first
match is copied, the match is replaced, and scanning continues after
it. -/
lemma listReplace_first_occurrence (pat rep : List Char) (hne : pat ≠ []) :
    ∀ (a b : List Char),
      (∀ i, i < a.length → pat.isPrefixOf ((a ++ (pat ++ b)).drop i) = false) →
      listReplace pat rep (a ++ (pat ++ b)) = a ++ rep ++ listReplace pat rep b := by
  intro a
  induction a with
  | nil =>
      intro b _
      cases pat with
      | nil => exact absurd rfl hne
      | cons p ps =>
          rw [List.nil_append, show (p :: ps) ++ b = p :: (ps ++ b) from rfl, listReplace_cons]
          rw [if_pos ⟨hne, isPrefixOf_append_self (p :: ps) b⟩]
          rw [show (p :: ps).length - 1 = ps.length from rfl, List.drop_left]
          rfl
  | cons x ap ih =>
      intro b hno
      rw [show (x :: ap) ++ (pat ++ b) = x :: (ap ++ (pat ++ b)) from rfl, listReplace_cons,
        if_neg]
      · rw [ih b]
        · rfl
        · intro i hi
          have hx := hno (i + 1) (by simpa using Nat.succ_lt_succ hi)
          simpa using hx
      · intro hc
        have h0 := hno 0 (by simp)
        rw [List.drop_zero] at h0
        rw [show (x :: ap) ++ (pat ++ b) = x :: (ap ++ (pat ++ b)) from rfl] at h0
        exact absurd hc.2 (by simp [h0])

/-- Occurrence of a one-character pattern is membership. -/
lemma occursIn_singleton (c : Char) :
    ∀ s : List Char, occursIn [c] s = s.any (fun x => c == x) := by
  intro s
  induction s with
  | nil => rfl
  | cons x xs ih =>
      rw [occursIn_cons, ih, List.any_cons]
      congr 1
      simp [List.isPrefixOf]

/-- Replacing a single character that does not occur in the preceding
text rewrites exactly that character. -/
lemma listReplace_single_char (c : Char) (rep : List Char) :
    ∀ (a b : List Char), c ∉ a →
      listReplace [c] rep (a ++ c :: b) = a ++ rep ++ listReplace [c] rep b := by
  intro a
  induction a with
  | nil =>
      intro b _
      rw [List.nil_append, listReplace_cons, if_pos ⟨by simp, by simp [List.isPrefixOf]⟩]
      simp
  | cons x ap ih =>
      intro b hc
      rw [show (x :: ap) ++ c :: b = x :: (ap ++ c :: b) from rfl, listReplace_cons, if_neg]
      · rw [ih b (fun hm => hc (List.mem_cons_of_mem x hm))]
        rfl
      · intro hg
        have : (c == x) = true := by simpa [List.isPrefixOf] using hg.2
        exact hc (by simp_all [List.mem_cons])

/-- A whole-string replacement with no occurrence is the identity. -/
lemma replaceAll_of_not_occurs {page : String} (pat rep : String)
    (h : occursIn pat.data page.data = false) : replaceAll page pat rep = page := by
  unfold replaceAll
  rw [listReplace_of_not_occurs pat.data rep.data page.data h]

/-- A substitution pass over patterns none of which occur in the page
leaves it verbatim. -/
lemma substPass_untouched (f : String → String) :
    ∀ (search replace : List String) (page : String),
      (∀ s ∈ search, occursIn (f s).data page.data = false) →
      substPass f search replace page = page := by
  intro search
  induction search with
  | nil => intro replace page _; rfl
  | cons s ss ih =>
      intro replace page hno
      cases replace with
      | nil => rfl
      | cons r rs =>
          show substPass f ss rs (replaceAll page (f s) r) = page
          rw [replaceAll_of_not_occurs (f s) r (hno s (List.mem_cons_self s ss))]
          exact ih rs page (fun t ht => hno t (List.mem_cons_of_mem s ht))

/-- Escaping a brace-delimited placeholder produces exactly the
HTML-entity-escaped placeholder form. -/
lemma quote_html_placeholder (k : String) (h1 : '\x7b' ∉ k.data) (h2 : '\x7d' ∉ k.data) :
    quote_html ("\x7b" ++ k ++ "\x7d") = "&#123;" ++ k ++ "&#125;" := by
  have hocc1 : occursIn ['\x7b'] (k.data ++ ['\x7d']) = false := by
    rw [occursIn_singleton]
    simp only [List.any_append, List.any_cons, List.any_nil, Bool.or_eq_false_iff]
    refine ⟨?_, by decide⟩
    simp only [List.any_eq_false]
    intro x hx
    simp only [beq_iff_eq]
    intro he
    exact h1 (he ▸ hx)
  have e1 : replaceAll ("\x7b" ++ k ++ "\x7d") "\x7b" "&#123;" =
      String.mk ("&#123;".data ++ (k.data ++ ['\x7d'])) := by
    unfold replaceAll
    rw [show ("\x7b" ++ k ++ "\x7d").data = [] ++ '\x7b' :: (k.data ++ ['\x7d']) from rfl]
    rw [show "\x7b".data = ['\x7b'] from rfl]
    rw [listReplace_single_char '\x7b' "&#123;".data [] (k.data ++ ['\x7d']) (by simp)]
    rw [listReplace_of_not_occurs _ _ _ hocc1]
    rfl
  have hocc2 : '\x7d' ∉ ("&#123;".data ++ k.data) := by
    intro hm
    rcases List.mem_append.mp hm with hm | hm
    · simp at hm
    · exact h2 hm
  have e2 : replaceAll (String.mk ("&#123;".data ++ (k.data ++ ['\x7d']))) "\x7d" "&#125;" =
      "&#123;" ++ k ++ "&#125;" := by
    unfold replaceAll
    rw [show (String.mk ("&#123;".data ++ (k.data ++ ['\x7d']))).data =
        ("&#123;".data ++ k.data) ++ '\x7d' :: [] from by simp]
    rw [show "\x7d".data = ['\x7d'] from rfl]
    rw [listReplace_single_char '\x7d' "&#125;".data ("&#123;".data ++ k.data) [] hocc2]
    rw [show listReplace ['\x7d'] "&#125;".data [] = [] from rfl]
    apply string_data_inj
    simp
  unfold quote_html
  rw [e1, e2]

/-- C4: the substitution core replaces the HTML-entity-escaped
placeholder form (produced by `quote_html`, which turns `{key}` into
`&#123;key&#125;`) in a first whole-text pass and the raw form in a
second pass; each `str::replace` rewrites every (leftmost,
non-overlapping) occurrence with the token's value; a search index with
no replacement token, and any placeholder whose patterns do not occur,
leave the page verbatim. -/
theorem c4_substitution :
    (∀ k : String, '\x7b' ∉ k.data → '\x7d' ∉ k.data →
      quote_html ("\x7b" ++ k ++ "\x7d") = "&#123;" ++ k ++ "&#125;") ∧
    (∀ (pat rep : String) (a b : List Char), pat.data ≠ [] →
      (∀ i, i < a.length → pat.data.isPrefixOf ((a ++ (pat.data ++ b)).drop i) = false) →
      replaceAll (String.mk (a ++ (pat.data ++ b))) pat rep =
        String.mk (a ++ rep.data ++ listReplace pat.data rep.data b)) ∧
    (∀ (f : String → String) (search : List String) (page : String),
      substPass f search [] page = page) ∧
    (∀ (search replace : List String) (page : String),
      (∀ s ∈ search, occursIn (quote_html s).data page.data = false ∧
        occursIn s.data page.data = false) →
      replace_in_page search replace page = page) := by
  refine ⟨quote_html_placeholder, ?_, ?_, ?_⟩
  · intro pat rep a b hne hno
    unfold replaceAll
    rw [show (String.mk (a ++ (pat.data ++ b))).data = a ++ (pat.data ++ b) from rfl]
    rw [listReplace_first_occurrence pat.data rep.data hne a b hno]
  · intro f search page
    cases search <;> rfl
  · intro search replace page hno
    unfold replace_in_page
    rw [substPass_untouched quote_html search replace page (fun s hs => (hno s hs).1)]
    rw [substPass_untouched (fun s => s) search replace page (fun s hs => (hno s hs).2)]

/-- C4 witness: the escaped placeholder form for the key `lat`. -/
theorem c4_substitution_witness :
    quote_html ("\x7b" ++ "lat" ++ "\x7d") = "&#123;" ++ "lat" ++ "&#125;" :=
  c4_substitution.1 "lat" (by decide) (by decide)
